import Mathlib

/-!
Verification of the linear-sweep x86 disassembler (src/disassemble.py and
src/instruction_data.py), as a shallow embedding in Lean.

Modelling conventions:
* A byte buffer is a `List Nat` whose elements are intended to be below 256.
* Python exceptions raised inside the decoders are modelled with
  `Except String`; the try/except at the top-level dispatch catches every
  error (`runTry`).
* Python list indexing (which can raise IndexError, and wraps negative
  indices) is `pyIndex` / `pyIndexI`; Python slicing (which silently
  truncates at the end of the list) is `pySlice`.
* `int.from_bytes(-, "little")` over a possibly truncated slice is `leU`
  (unsigned) and `leSigned` (two's complement over however many bytes the
  slice actually holds); `int.from_bytes(-, "big")` is `beU`.
* Python string formatting: `toString` on `Int` matches Python's decimal
  rendering; `hexU`/`padZero`/`pyHexPad` implement `format(-, "0wX")`,
  including Python's behaviour on negative integers (a leading minus sign
  that counts towards the requested width).
* The repository file byte_utils.py is not present under src/; its four
  functions are modelled from the spec (each marked below).  Likewise the
  names CALL_GENERATING and Encodings imported by disassemble.py: the spec
  describes a single encodings enumeration (`Encoding` here), and
  CALL_GENERATING is never used by the engine, so it is omitted.
* `InstructionInfo.prefix_map` is always None in the table and never read
  by the engine; it is omitted from the structure.
-/

/-- Uppercase hexadecimal digit for a value below 16. -/
def hexDigitChar (n : Nat) : Char :=
  match n with
  | 0 => '0'
  | 1 => '1'
  | 2 => '2'
  | 3 => '3'
  | 4 => '4'
  | 5 => '5'
  | 6 => '6'
  | 7 => '7'
  | 8 => '8'
  | 9 => '9'
  | 10 => 'A'
  | 11 => 'B'
  | 12 => 'C'
  | 13 => 'D'
  | 14 => 'E'
  | 15 => 'F'
  | _ => '?'

/-- Most-significant-first hexadecimal digits of `n` (fuel-indexed; any fuel
at least `n` is exact). -/
def hexChars : Nat → Nat → List Char
  | 0, _ => []
  | f + 1, n => if n = 0 then [] else hexChars f (n / 16) ++ [hexDigitChar (n % 16)]

/-- Python `format(n, "X")` for a natural number. -/
def hexU (n : Nat) : String :=
  if n = 0 then ("0") else (hexChars n n).asString

/-- Left-pad a string with zeros to width `w` (Python zero padding). -/
def padZero (s : String) (w : Nat) : String :=
  String.mk (List.replicate (w - s.length) '0') ++ s

/-- Python `format(i, "0wX")` on an arbitrary integer: for a negative value
the minus sign is printed first and counts towards the width. -/
def pyHexPad (i : Int) (w : Nat) : String :=
  if i < 0 then ("-") ++ padZero (hexU i.natAbs) (w - 1) else padZero (hexU i.toNat) w

/-- `int.from_bytes(l, "little")` (unsigned). -/
def leU (l : List Nat) : Nat :=
  l.foldr (fun b acc => b + 256 * acc) 0

/-- `int.from_bytes(l, "little", signed=True)`: two's complement over the
actual number of bytes present (0 for an empty slice). -/
def leSigned (l : List Nat) : Int :=
  let v := leU l
  if 2 * v < 256 ^ l.length then (v : Int) else (v : Int) - ((256 ^ l.length : Nat) : Int)

/-- `int.from_bytes(l, "big")` (unsigned). -/
def beU (l : List Nat) : Nat :=
  l.foldl (fun acc b => 256 * acc + b) 0

/-- Python list indexing with a nonnegative index: `l[i]`, raising
IndexError when out of range. -/
def pyIndex {α : Type} (l : List α) (i : Nat) : Except String α :=
  match l[i]? with
  | some a => Except.ok a
  | none => Except.error ("IndexError")

/-- Python list indexing with a possibly negative index (negative indices
wrap from the end, as in Python). -/
def pyIndexI {α : Type} (l : List α) (i : Int) : Except String α :=
  let j : Int := if i < 0 then i + l.length else i
  if j < 0 then Except.error ("IndexError") else pyIndex l j.toNat

/-- Python slicing `l[a:b]` for nonnegative bounds: truncates silently. -/
def pySlice {α : Type} (l : List α) (a b : Nat) : List α :=
  (l.drop a).take (b - a)

/-- Modelled from the spec: byte_utils.parse_modrm is missing from src/.
Spec 4.1: extract the 2-bit mode (bits 7-6), 3-bit register/extension
selector (bits 5-3) and 3-bit operand selector (bits 2-0) of the
addressing descriptor byte. -/
def parse_modrm (b : Nat) : Nat × Nat × Nat :=
  (b / 64, b / 8 % 8, b % 8)

/-- Modelled from the spec: byte_utils.parse_sib is missing from src/.
Spec 4.1: scale is 2 raised to the 2-bit field at bits 7-6, index is the
3-bit field at bits 5-3, base the 3-bit field at bits 2-0. -/
def parse_sib (b : Nat) : Nat × Nat × Nat :=
  (2 ^ (b / 64), b / 8 % 8, b % 8)

/-- Modelled from the spec: byte_utils.to_signed is missing from src/.
Spec 4.1: two's-complement signed interpretation of one unsigned byte. -/
def to_signed (b : Nat) : Int :=
  if b ≥ 128 then (b : Int) - 256 else (b : Int)

/-- The eleven operand-encoding tags (ENCODINGS in instruction_data.py). -/
inductive Encoding
  | I
  | MI
  | MR
  | RM
  | M
  | O
  | OI
  | D
  | FD
  | TD
  | ZO
deriving DecidableEq, Repr

/-- Static decode metadata for one opcode (InstructionInfo in
instruction_data.py).  The extension map models the Python dict
(None and the empty dict are both falsy, so `[]` stands for "absent"). -/
structure InstructionInfo where
  opcode : Nat
  mnemonic : Option String
  has_modrm : Bool
  encoding : Encoding
  extension_map : List (Nat × String)
  addressing_modes : List Nat
  opcode_plus : Bool
  imm_size : Nat
deriving DecidableEq, Repr

/-- Positional constructor used to transcribe the table (Python defaults:
extension_map=None, addressing_modes=[0,1,2,3], opcode_plus=False,
imm_size=4). -/
def mkI (op : Nat) (mn : Option String) (hm : Bool) (enc : Encoding)
    (ext : List (Nat × String)) (modes : List Nat) (opl : Bool) (imm : Nat) :
    InstructionInfo :=
  ⟨op, mn, hm, enc, ext, modes, opl, imm⟩

def GLOBAL_REGISTER_NAMES : List String :=
  ["eax", "ecx", "edx", "ebx", "esp", "ebp", "esi", "edi"]

def REGADD_OPCODES : List Nat := [0x48, 0x40, 0xB8, 0x58, 0x50]

/-- GLOBAL_INSTRUCTIONS_MAP from instruction_data.py, transcribed entry by
entry as an association list (dict keys are unique, so lookup agrees). -/
def GLOBAL_INSTRUCTIONS_MAP : List (Nat × InstructionInfo) := [
  (0x05, mkI 0x05 (some ("add eax,")) false Encoding.I [] [0, 1, 2, 3] false 4),
  (0x01, mkI 0x01 (some ("add")) true Encoding.MR [] [0, 1, 2, 3] false 4),
  (0x03, mkI 0x03 (some ("add")) true Encoding.RM [] [0, 1, 2, 3] false 4),
  (0x25, mkI 0x25 (some ("and eax,")) false Encoding.I [] [0, 1, 2, 3] false 4),
  (0x21, mkI 0x21 (some ("and")) true Encoding.MR [] [0, 1, 2, 3] false 4),
  (0x23, mkI 0x23 (some ("and")) true Encoding.RM [] [0, 1, 2, 3] false 4),
  (0xE8, mkI 0xE8 (some ("call")) false Encoding.D [] [0, 1, 2, 3] false 4),
  (0x0FAE, mkI 0x0FAE none true Encoding.M [(7, ("clflush"))] [0, 1, 2] false 4),
  (0x3D, mkI 0x3D (some ("cmp eax,")) false Encoding.I [] [0, 1, 2, 3] false 4),
  (0x39, mkI 0x39 (some ("cmp")) true Encoding.MR [] [0, 1, 2, 3] false 4),
  (0x3B, mkI 0x3B (some ("cmp")) true Encoding.RM [] [0, 1, 2, 3] false 4),
  (0x48, mkI 0x48 (some ("dec")) false Encoding.O [] [0, 1, 2, 3] true 4),
  (0x40, mkI 0x40 (some ("inc")) false Encoding.O [] [0, 1, 2, 3] true 4),
  (0xEB, mkI 0xEB (some ("jmp")) false Encoding.D [] [0, 1, 2, 3] false 1),
  (0xE9, mkI 0xE9 (some ("jmp")) false Encoding.D [] [0, 1, 2, 3] false 4),
  (0x74, mkI 0x74 (some ("jz")) false Encoding.D [] [0, 1, 2, 3] false 1),
  (0x75, mkI 0x75 (some ("jnz")) false Encoding.D [] [0, 1, 2, 3] false 1),
  (0x0F85, mkI 0x0F85 (some ("jnz")) false Encoding.D [] [0, 1, 2, 3] false 4),
  (0x0F84, mkI 0x0F84 (some ("jz")) false Encoding.D [] [0, 1, 2, 3] false 4),
  (0x8D, mkI 0x8D (some ("lea")) true Encoding.RM [] [0, 1, 2] false 4),
  (0xA1, mkI 0xA1 (some ("mov")) false Encoding.FD [] [0, 1, 2, 3] false 4),
  (0xA3, mkI 0xA3 (some ("mov")) false Encoding.TD [] [0, 1, 2, 3] false 4),
  (0xB8, mkI 0xB8 (some ("mov")) false Encoding.OI [] [0, 1, 2, 3] false 4),
  (0xC7, mkI 0xC7 none true Encoding.MI [(0, ("mov"))] [0, 1, 2, 3] false 4),
  (0x89, mkI 0x89 (some ("mov")) true Encoding.MR [] [0, 1, 2, 3] false 4),
  (0x8B, mkI 0x8B (some ("mov")) true Encoding.RM [] [0, 1, 2, 3] false 4),
  (0xA5, mkI 0xA5 (some ("movsd")) false Encoding.ZO [] [0, 1, 2, 3] false 4),
  (0x90, mkI 0x90 (some ("nop")) false Encoding.ZO [] [0, 1, 2, 3] false 4),
  (0x0D, mkI 0x0D (some ("or eax,")) false Encoding.I [] [0, 1, 2, 3] false 4),
  (0x09, mkI 0x09 (some ("or")) true Encoding.MR [] [0, 1, 2, 3] false 4),
  (0x0B, mkI 0x0B (some ("or")) true Encoding.RM [] [0, 1, 2, 3] false 4),
  (0x8F, mkI 0x8F none true Encoding.M [(0, ("pop"))] [0, 1, 2, 3] false 4),
  (0x58, mkI 0x58 (some ("pop")) false Encoding.O [] [0, 1, 2, 3] false 4),
  (0x50, mkI 0x50 (some ("push")) false Encoding.O [] [0, 1, 2, 3] false 4),
  (0x68, mkI 0x68 (some ("push")) false Encoding.I [] [0, 1, 2, 3] false 4),
  (0x6A, mkI 0x6A (some ("push")) false Encoding.I [] [0, 1, 2, 3] false 1),
  (0xF2A7, mkI 0xF2A7 (some ("repne cmpsd")) false Encoding.ZO [] [0, 1, 2, 3] false 4),
  (0xCB, mkI 0xCB (some ("retf")) false Encoding.ZO [] [0, 1, 2, 3] false 4),
  (0xCA, mkI 0xCA (some ("retf")) false Encoding.I [] [0, 1, 2, 3] false 2),
  (0xC3, mkI 0xC3 (some ("retn")) false Encoding.ZO [] [0, 1, 2, 3] false 4),
  (0xC2, mkI 0xC2 (some ("retn")) false Encoding.I [] [0, 1, 2, 3] false 2),
  (0x2D, mkI 0x2D (some ("sub")) false Encoding.I [] [0, 1, 2, 3] false 4),
  (0x29, mkI 0x29 (some ("sub")) true Encoding.MR [] [0, 1, 2, 3] false 4),
  (0x2B, mkI 0x2B (some ("sub")) true Encoding.RM [] [0, 1, 2, 3] false 4),
  (0xA9, mkI 0xA9 (some ("test eax,")) false Encoding.I [] [0, 1, 2, 3] false 4),
  (0x85, mkI 0x85 (some ("test")) true Encoding.MR [] [0, 1, 2, 3] false 4),
  (0x35, mkI 0x35 (some ("xor eax,")) false Encoding.I [] [0, 1, 2, 3] false 4),
  (0x31, mkI 0x31 (some ("xor")) true Encoding.MR [] [0, 1, 2, 3] false 4),
  (0x33, mkI 0x33 (some ("xor")) true Encoding.RM [] [0, 1, 2, 3] false 4),
  (0xFF, mkI 0xFF none true Encoding.M
    [(0, ("inc")), (1, ("dec")), (2, ("call")), (4, ("jmp")), (6, ("push"))]
    [0, 1, 2, 3] false 4),
  (0x81, mkI 0x81 none true Encoding.MI
    [(0, ("add")), (1, ("or")), (4, ("and")), (5, ("sub")), (6, ("xor")), (7, ("cmp"))]
    [0, 1, 2, 3] false 4),
  (0xF7, mkI 0xF7 none true Encoding.M
    [(0, ("test")), (2, ("not")), (7, ("idiv"))] [0, 1, 2, 3] false 4)]

/-- A Python value stored in an Instruction field that may hold either an
int or an already-formatted string. -/
inductive PyVal
  | int (i : Int)
  | str (s : String)
deriving DecidableEq, Repr

/-- f-string rendering of an optional int-or-string field (Python prints
None as "None"; unreachable for the fields actually rendered). -/
def pyShow (v : Option PyVal) : String :=
  match v with
  | some (PyVal.int i) => toString i
  | some (PyVal.str s) => s
  | none => ("None")

/-- f-string rendering of an optional string field. -/
def pyStrOf (v : Option String) : String :=
  match v with
  | some s => s
  | none => ("None")

/-- Python `format(imm, "0wX")` of an Instruction immediate field; the
field holds an int whenever this formatting is reached. -/
def pyFmtImmHex (v : Option PyVal) (w : Nat) : String :=
  match v with
  | some (PyVal.int i) => pyHexPad i w
  | _ => ("")

/-- The decoded-instruction token (class Instruction in disassemble.py).
The scale/index/base fields of the Python class are never assigned nor
rendered, so they are omitted. -/
structure Instruction where
  mnemonic : Option String
  encoding : Option Encoding
  immediate : Option PyVal
  reg : Option String
  rm : Option String
  is_db : Bool
deriving DecidableEq, Repr

/-- Instruction.__str__ : rendering is a function of the encoding tag; a
db token always renders as the 2-hex-digit define-byte directive. -/
def Instruction.render (self : Instruction) : String :=
  if self.is_db then ("db 0x") ++ pyFmtImmHex self.immediate 2
  else
    match self.encoding with
    | some Encoding.M => pyStrOf self.mnemonic ++ (" ") ++ pyStrOf self.rm
    | some Encoding.MI =>
        pyStrOf self.mnemonic ++ (" ") ++ pyStrOf self.rm ++ (", ") ++ pyShow self.immediate
    | some Encoding.MR =>
        pyStrOf self.mnemonic ++ (" ") ++ pyStrOf self.rm ++ (", ") ++ pyStrOf self.reg
    | some Encoding.RM =>
        pyStrOf self.mnemonic ++ (" ") ++ pyStrOf self.reg ++ (", ") ++ pyStrOf self.rm
    | some Encoding.I => pyStrOf self.mnemonic ++ (" ") ++ pyShow self.immediate
    | some Encoding.O => pyStrOf self.mnemonic ++ (" ") ++ pyStrOf self.reg
    | some Encoding.OI =>
        pyStrOf self.mnemonic ++ (" ") ++ pyStrOf self.reg ++ (", ") ++ pyShow self.immediate
    | some Encoding.FD =>
        pyStrOf self.mnemonic ++ (" ") ++ pyStrOf self.reg ++ (", ") ++ pyShow self.immediate
    | some Encoding.TD =>
        pyStrOf self.mnemonic ++ (" ") ++ pyShow self.immediate ++ (", ") ++ pyStrOf self.reg
    | some Encoding.D => pyStrOf self.mnemonic ++ (" ") ++ pyShow self.immediate
    | some Encoding.ZO => pyStrOf self.mnemonic
    | none => pyStrOf self.mnemonic

/-- The unrecognized-byte placeholder token `Instruction(immediate=b, is_db=True)`. -/
def dbInstr (b : Nat) : Instruction :=
  ⟨none, none, some (PyVal.int (b : Int)), none, none, true⟩

/-- modrm_get_mnemonic: resolve the mnemonic through the opcode-extension
map when one exists; an unmapped selector raises. -/
def modrm_get_mnemonic (reg : Nat) (info : InstructionInfo) : Except String (Option String) :=
  if info.extension_map ≠ [] ∧ (info.extension_map.lookup reg).isSome then
    Except.ok (info.extension_map.lookup reg)
  else if info.extension_map ≠ [] then
    Except.error (("INVALID OPCODE EXTENSION ") ++ toString reg ++ (" FOR OPCODE ") ++
      hexU info.opcode)
  else Except.ok info.mnemonic

/-- modrm_get_addressing_mode: accept the mode only when the record
permits it. -/
def modrm_get_addressing_mode (mod_ : Nat) (info : InstructionInfo) : Except String Nat :=
  if mod_ ∈ info.addressing_modes then Except.ok mod_
  else
    Except.error (("INVALID ADDRESSING MODE ") ++ toString mod_ ++ (" FOR OPCODE ") ++
      hexU info.opcode)

/-- The mode-dependent addressing-operand construction of modrm_disassemble
(lines 111-193): returns the rendered r/m text together with the number of
extra bytes consumed beyond opcode + modrm (the Python code accumulates the
same quantity into instruction_size).  `data` starts at the modrm byte. -/
def modrm_rm_operand (data : List Nat) (mod_ : Nat) (rm : Nat) :
    Except String (String × Nat) :=
  if mod_ = 3 then
    match pyIndex GLOBAL_REGISTER_NAMES rm with
    | Except.error e => Except.error e
    | Except.ok rn => Except.ok (rn, 0)
  else if mod_ = 2 then
    if rm = 4 then
      let displacement := leU (pySlice data 2 6)
      match pyIndex data 1 with
      | Except.error e => Except.error e
      | Except.ok sib =>
        let si := parse_sib sib
        match pyIndex GLOBAL_REGISTER_NAMES si.2.2 with
        | Except.error e => Except.error e
        | Except.ok bn =>
          if si.2.1 = 4 then
            let s0 := ("[ dword ") ++ bn
            let s1 := if displacement ≠ 0 then s0 ++ (" + 0x") ++ padZero (hexU displacement) 8 else s0
            Except.ok (s1 ++ (" ]"), 5)
          else
            match pyIndex GLOBAL_REGISTER_NAMES si.2.1 with
            | Except.error e => Except.error e
            | Except.ok ixn =>
              let s0 := ("[ dword ") ++ ixn ++ ("*") ++ toString si.1 ++ (" + ") ++ bn
              let s1 := if displacement ≠ 0 then s0 ++ (" + 0x") ++ padZero (hexU displacement) 8 else s0
              Except.ok (s1 ++ (" ]"), 5)
    else
      let displacement := leU (pySlice data 1 5)
      match pyIndex GLOBAL_REGISTER_NAMES rm with
      | Except.error e => Except.error e
      | Except.ok rn =>
        let s0 := ("[ dword ") ++ rn
        let s1 := if displacement ≠ 0 then s0 ++ (" + 0x") ++ padZero (hexU displacement) 8 else s0
        Except.ok (s1 ++ (" ]"), 4)
  else if mod_ = 1 then
    if rm = 4 then
      match pyIndex data 2 with
      | Except.error e => Except.error e
      | Except.ok b2 =>
        let displacement := to_signed b2
        match pyIndex data 1 with
        | Except.error e => Except.error e
        | Except.ok sib =>
          let si := parse_sib sib
          match pyIndex GLOBAL_REGISTER_NAMES si.2.2 with
          | Except.error e => Except.error e
          | Except.ok bn =>
            if si.2.1 = 4 then
              let s0 := ("[ byte ") ++ bn
              let s1 := if displacement ≠ 0 then
                  s0 ++ (" ") ++ (if displacement > 0 then ("+") else ("-")) ++ (" 0x") ++
                    padZero (hexU displacement.natAbs) 2
                else s0
              Except.ok (s1 ++ (" ]"), 2)
            else
              match pyIndex GLOBAL_REGISTER_NAMES si.2.1 with
              | Except.error e => Except.error e
              | Except.ok ixn =>
                let s0 := ("[ byte ") ++ ixn ++ ("*") ++ toString si.1 ++ (" + ") ++ bn
                let s1 := if displacement ≠ 0 then
                    s0 ++ (" ") ++ (if displacement > 0 then ("+") else ("-")) ++ (" 0x") ++
                      padZero (hexU displacement.natAbs) 2
                  else s0
                Except.ok (s1 ++ (" ]"), 2)
    else
      match pyIndex data 1 with
      | Except.error e => Except.error e
      | Except.ok b1 =>
        let displacement := to_signed b1
        match pyIndex GLOBAL_REGISTER_NAMES rm with
        | Except.error e => Except.error e
        | Except.ok rn =>
          let s0 := ("[ byte ") ++ rn
          let s1 := if displacement ≠ 0 then
              s0 ++ (" ") ++ (if displacement > 0 then ("+") else ("-")) ++ (" 0x") ++
                padZero (hexU displacement.natAbs) 2
            else s0
          Except.ok (s1 ++ (" ]"), 1)
  else
    if rm = 5 then
      let displacement := leU (pySlice data 1 5)
      Except.ok (("[ 0x") ++ padZero (hexU displacement) 8 ++ (" ]"), 4)
    else if rm = 4 then
      match pyIndex data 1 with
      | Except.error e => Except.error e
      | Except.ok sib =>
        let si := parse_sib sib
        if si.2.1 = 4 then
          match pyIndex GLOBAL_REGISTER_NAMES si.2.2 with
          | Except.error e => Except.error e
          | Except.ok bn => Except.ok (("[ ") ++ bn ++ (" ]"), 1)
        else if si.2.2 = 5 then
          match pyIndex GLOBAL_REGISTER_NAMES si.2.1 with
          | Except.error e => Except.error e
          | Except.ok ixn =>
            let s0 := ("[ ") ++ ixn ++ ("*") ++ toString si.1
            let displacement := leU (pySlice data 2 6)
            let s1 := if displacement ≠ 0 then s0 ++ (" + 0x") ++ padZero (hexU displacement) 8 else s0
            Except.ok (s1 ++ (" ]"), 1 + 4)
        else
          match pyIndex GLOBAL_REGISTER_NAMES si.2.1 with
          | Except.error e => Except.error e
          | Except.ok ixn =>
            match pyIndex GLOBAL_REGISTER_NAMES si.2.2 with
            | Except.error e => Except.error e
            | Except.ok bn =>
              Except.ok (("[ ") ++ ixn ++ ("*") ++ toString si.1 ++ (" + ") ++ bn ++ (" ]"), 1)
    else
      match pyIndex GLOBAL_REGISTER_NAMES rm with
      | Except.error e => Except.error e
      | Except.ok rn => Except.ok (("[ ") ++ rn ++ (" ]"), 0)

/-- modrm_disassemble: `data` is the byte sequence immediately after the
opcode (data[opcode_size:]).  The MI immediate is sliced at
instruction_size - 1 exactly as in the source (note the source expression
is only correct for 1-byte opcodes; no 2-byte opcode is MI-encoded). -/
def modrm_disassemble (data : List Nat) (opcode_size : Nat) (info : InstructionInfo) :
    Except String (Instruction × Nat) :=
  match pyIndex data 0 with
  | Except.error e => Except.error e
  | Except.ok modrmByte =>
    let mrr := parse_modrm modrmByte
    match modrm_get_mnemonic mrr.2.1 info with
    | Except.error e => Except.error e
    | Except.ok mnem =>
      match pyIndex GLOBAL_REGISTER_NAMES mrr.2.1 with
      | Except.error e => Except.error e
      | Except.ok regName =>
        match modrm_get_addressing_mode mrr.1 info with
        | Except.error e => Except.error e
        | Except.ok mod_ =>
          match modrm_rm_operand data mod_ mrr.2.2 with
          | Except.error e => Except.error e
          | Except.ok re =>
            let instruction_size := opcode_size + 1 + re.2
            if info.encoding = Encoding.MI then
              let immRaw := leU (pySlice data (instruction_size - 1)
                (instruction_size - 1 + info.imm_size))
              let immediate : Option PyVal :=
                if info.imm_size = 4 then
                  some (PyVal.str (("0x") ++ padZero (hexU immRaw) 8))
                else some (PyVal.int (immRaw : Int))
              Except.ok (⟨mnem, some info.encoding, immediate, some regName, some re.1, false⟩,
                instruction_size + info.imm_size)
            else
              Except.ok (⟨mnem, some info.encoding, none, some regName, some re.1, false⟩,
                instruction_size)

/-- no_modrm_no_regadd_disassemble: `data` is the byte sequence after the
opcode.  Note that the else-branch (commented "encoding is D" in the
source) is reached by the D, FD and TD encodings alike, so all three get
the signed read plus the offset + instruction_size adjustment. -/
def no_modrm_no_regadd_disassemble (data : List Nat) (opcode_size : Nat)
    (info : InstructionInfo) (offset : Int) : Instruction × Nat :=
  if info.encoding = Encoding.ZO then
    (⟨info.mnemonic, some info.encoding, none, none, none, false⟩, opcode_size)
  else
    let reg : Option String :=
      if info.encoding = Encoding.TD ∨ info.encoding = Encoding.FD then some ("eax") else none
    let instruction_size := opcode_size + info.imm_size
    if info.encoding = Encoding.I then
      let immediate : Option PyVal :=
        if info.imm_size = 4 then
          some (PyVal.str (("0x") ++ padZero (hexU (leU (List.take info.imm_size data))) 8))
        else if info.imm_size = 2 then
          some (PyVal.str (("0x") ++ padZero (hexU (leU (List.take info.imm_size data))) 4))
        else
          some (PyVal.str (toString (leSigned (List.take info.imm_size data))))
      (⟨info.mnemonic, some info.encoding, immediate, reg, none, false⟩, instruction_size)
    else
      let imm := leSigned (List.take info.imm_size data)
      (⟨info.mnemonic, some info.encoding,
        some (PyVal.int (imm + (offset + (instruction_size : Int)))), reg, none, false⟩,
        instruction_size)

/-- regadd_check_opcode: scan the register-embedded base-opcode list for a
base whose distance to the byte is in [0, 8); the Python code then indexes
the table at that base (every base is registered, so the lookup is the
dict access). -/
def regadd_check_opcode (opcode : Nat) : Option InstructionInfo :=
  match REGADD_OPCODES.find? (fun r => decide (r ≤ opcode ∧ opcode - r < 8)) with
  | some r => GLOBAL_INSTRUCTIONS_MAP.lookup r
  | none => none

/-- regadd_disassemble: `data` starts at the opcode byte itself. -/
def regadd_disassemble (data : List Nat) (info : InstructionInfo) :
    Except String (Instruction × Nat) :=
  match pyIndex data 0 with
  | Except.error e => Except.error e
  | Except.ok b0 =>
    match pyIndexI GLOBAL_REGISTER_NAMES ((b0 : Int) - (info.opcode : Int)) with
    | Except.error e => Except.error e
    | Except.ok regName =>
      if info.encoding = Encoding.OI then
        let instruction_size := 1 + info.imm_size
        let imm := leU (pySlice data 1 instruction_size)
        Except.ok (⟨info.mnemonic, some info.encoding,
          some (PyVal.str (("0x") ++ padZero (hexU imm) 8)), some regName, none, false⟩,
          instruction_size)
      else
        Except.ok (⟨info.mnemonic, some info.encoding, none, some regName, none, false⟩, 1)

/-- The body of the try block in disassemble (lines 327-345): dispatch to
the modrm, register-embedded or plain path.  In the register-embedded
branch reached through regadd_check_opcode the Python variable opcode_size
is unbound but also unused (those records have has_modrm = False and an
O/OI encoding), so passing any value is faithful. -/
def tryBody (data : List Nat) (opcode_size : Nat) (info : InstructionInfo) (offset : Int) :
    Except String (Instruction × Nat) :=
  if info.has_modrm then
    modrm_disassemble (List.drop opcode_size data) opcode_size info
  else if info.encoding = Encoding.O ∨ info.encoding = Encoding.OI then
    regadd_disassemble data info
  else
    Except.ok (no_modrm_no_regadd_disassemble (List.drop opcode_size data) opcode_size info offset)

/-- The try/except wrapper: any error raised during per-instruction decode
is converted into a 1-byte db token for the first byte. -/
def runTry (data : List Nat) (opcode_size : Nat) (info : InstructionInfo) (offset : Int)
    (b0 : Nat) : Instruction × Nat :=
  match tryBody data opcode_size info offset with
  | Except.ok r => r
  | Except.error _ => (dbInstr b0, 1)

/-- disassemble (lines 305-348): opcode dispatch.  The initial data[0]
access sits outside the try block, so an empty buffer raises (modelled as
the error result); for a nonempty buffer the function always returns. -/
def disassemble (data : List Nat) (offset : Int) : Except String (Instruction × Nat) :=
  match pyIndex data 0 with
  | Except.error e => Except.error e
  | Except.ok b0 =>
    match GLOBAL_INSTRUCTIONS_MAP.lookup b0 with
    | some info => Except.ok (runTry data 1 info offset b0)
    | none =>
      match GLOBAL_INSTRUCTIONS_MAP.lookup (beU (pySlice data 0 2)) with
      | some info => Except.ok (runTry data 2 info offset b0)
      | none =>
        match regadd_check_opcode b0 with
        | some info => Except.ok (runTry data 1 info offset b0)
        | none => Except.ok (dbInstr b0, 1)

/-- The iteration of linnear_sweep (lines 359-381), fuel-indexed so that it
is structurally recursive; `sweepFuel_isSome` below shows fuel
data.length + 1 always suffices (each step consumes at least one byte).
Each element of the result is (starting offset, raw decoded token,
consumed size); label substitution and output assembly are applied to this
step trace by `linnear_sweep` below, which is how the loop body stores
them.  The error branch is unreachable: the suffix passed to disassemble
is nonempty. -/
def sweepFuel (data : List Nat) : Nat → Nat → Option (List (Nat × Instruction × Nat))
  | 0, c => if data.length ≤ c then some [] else none
  | f + 1, c =>
    if c < data.length then
      match disassemble (List.drop c data) (c : Int) with
      | Except.ok r => (sweepFuel data f (c + r.2)).map (fun rest => (c, r.1, r.2) :: rest)
      | Except.error _ => none
    else some []

/-- The step trace of the sweep started at cursor 0. -/
def sweepSteps (data : List Nat) : List (Nat × Instruction × Nat) :=
  (sweepFuel data (data.length + 1) 0).getD []

/-- Total number of bytes consumed across all decode steps. -/
def stepsSizeSum (steps : List (Nat × Instruction × Nat)) : Nat :=
  (steps.map (fun t => t.2.2)).sum

/-- The steps tile the byte stream: each starts exactly where the previous
one ended, beginning at the given cursor (no overlap, no gap). -/
def consecutiveFrom : Nat → List (Nat × Instruction × Nat) → Prop
  | _, [] => True
  | c, t :: rest => t.1 = c ∧ consecutiveFrom (c + t.2.2) rest

/-- The label synthesized for destination offset v:
f"offset_{v:08X}h" (lines 369-370). -/
def labelText (v : Int) : String :=
  ("offset_") ++ pyHexPad v 8 ++ ("h")

/-- The label produced by a decoded token, when its encoding tag is
relative-displacement (line 367).  A D-encoded token always carries an int
immediate at this point; the str case is unreachable (Python's 08X format
would raise there, uncaught). -/
def dLabel (ins : Instruction) : Option (Int × String) :=
  if ins.encoding = some Encoding.D then
    match ins.immediate with
    | some (PyVal.int v) => some (v, labelText v)
    | _ => none
  else none

/-- Overwrite the token's immediate with the label text (line 372). -/
def substLabel (ins : Instruction) : Instruction :=
  match dLabel ins with
  | some kv => { ins with immediate := some (PyVal.str kv.2) }
  | none => ins

/-- Python dict assignment labels[k] = v on an insertion-ordered mapping. -/
def labelsUpdate (labs : List (Int × String)) (k : Int) (v : String) : List (Int × String) :=
  if labs.any (fun p => decide (p.1 = k)) then
    labs.map (fun p => if p.1 = k then (k, v) else p)
  else labs ++ [(k, v)]

/-- Python dict key lookup on the insertion-ordered mapping (keys are
unique by construction, so first match is the binding). -/
def lookupL : List (Int × String) → Int → Option String
  | [], _ => none
  | p :: t, k => if p.1 = k then some p.2 else lookupL t k

/-- One sweep iteration's effect on the labels dict (lines 367-372). -/
def labelStep (labs : List (Int × String)) (t : Nat × Instruction × Nat) :
    List (Int × String) :=
  match dLabel t.2.1 with
  | some kv => labelsUpdate labs kv.1 kv.2
  | none => labs

/-- The labels dict accumulated over the sweep (line 371). -/
def sweepLabels (steps : List (Nat × Instruction × Nat)) : List (Int × String) :=
  steps.foldl labelStep []

/-- linnear_sweep (lines 351-383).  The file loader get_file is missing
from src/ (modelled from the spec: it returns the file's raw bytes and its
failure is not caught), so the sweep is taken over the loaded buffer.
Output entries are keyed by starting offset (offsets strictly increase, so
dict insertion equals this association list), holding the label-substituted
token and the raw slice data[offset : offset + size]. -/
def linnear_sweep (data : List Nat) :
    List (Nat × (Instruction × List Nat)) × List (Int × String) :=
  let steps := sweepSteps data
  (steps.map (fun t => (t.1, (substLabel t.2.1, pySlice data t.1 (t.1 + t.2.2)))),
    sweepLabels steps)

/-- An uppercase hexadecimal digit character. -/
def isHexUpper (c : Char) : Bool :=
  ['0', '1', '2', '3', '4', '5', '6', '7', '8', '9', 'A', 'B', 'C', 'D', 'E', 'F'].contains c

/-- Decidable equality of decode results, for concrete evaluation. -/
instance {ε α : Type} [DecidableEq ε] [DecidableEq α] : DecidableEq (Except ε α) := fun a b =>
  match a, b with
  | Except.error e1, Except.error e2 =>
      if h : e1 = e2 then Decidable.isTrue (by rw [h])
      else Decidable.isFalse (by intro hh; cases hh; exact h rfl)
  | Except.error _, Except.ok _ => Decidable.isFalse (by intro hh; cases hh)
  | Except.ok _, Except.error _ => Decidable.isFalse (by intro hh; cases hh)
  | Except.ok a1, Except.ok a2 =>
      if h : a1 = a2 then Decidable.isTrue (by rw [h])
      else Decidable.isFalse (by intro hh; cases hh; exact h rfl)

set_option maxHeartbeats 1000000

theorem disassemble_isOk (b : Nat) (rest : List Nat) (off : Int) :
    ∃ r, disassemble (b :: rest) off = Except.ok r := by
  have h0 : pyIndex (b :: rest) 0 = Except.ok b := by simp [pyIndex]
  unfold disassemble
  rw [h0]
  repeat' split
  all_goals first
    | exact ⟨_, rfl⟩
    | simp_all

theorem modrm_size_lb {data : List Nat} {osz : Nat} {info : InstructionInfo}
    {r : Instruction × Nat} (h : modrm_disassemble data osz info = Except.ok r) :
    osz + 1 ≤ r.2 := by
  simp only [modrm_disassemble] at h
  repeat' split at h
  all_goals cases h
  all_goals simp
  all_goals omega

theorem regadd_size_lb {data : List Nat} {info : InstructionInfo}
    {r : Instruction × Nat} (h : regadd_disassemble data info = Except.ok r) :
    1 ≤ r.2 := by
  simp only [regadd_disassemble] at h
  repeat' split at h
  all_goals cases h
  all_goals simp

theorem no_modrm_size_lb (data : List Nat) (osz : Nat) (info : InstructionInfo) (off : Int)
    (h : 1 ≤ osz) : 1 ≤ (no_modrm_no_regadd_disassemble data osz info off).2 := by
  simp only [no_modrm_no_regadd_disassemble]
  repeat' split
  all_goals simp
  all_goals omega

theorem tryBody_size_lb {data : List Nat} {osz : Nat} {info : InstructionInfo} {off : Int}
    {r : Instruction × Nat} (h1 : 1 ≤ osz) (h : tryBody data osz info off = Except.ok r) :
    1 ≤ r.2 := by
  unfold tryBody at h
  split at h
  · have := modrm_size_lb h
    omega
  · split at h
    · exact regadd_size_lb h
    · cases h
      exact no_modrm_size_lb _ _ _ _ h1

theorem runTry_size_lb (data : List Nat) (osz : Nat) (info : InstructionInfo) (off : Int)
    (b0 : Nat) (h1 : 1 ≤ osz) : 1 ≤ (runTry data osz info off b0).2 := by
  unfold runTry
  cases htb : tryBody data osz info off with
  | ok r => exact tryBody_size_lb h1 htb
  | error e => simp

theorem disassemble_size_lb {data : List Nat} {off : Int} {r : Instruction × Nat}
    (h : disassemble data off = Except.ok r) : 1 ≤ r.2 := by
  unfold disassemble at h
  cases hp : pyIndex data 0 with
  | error e => rw [hp] at h; cases h
  | ok b0 =>
    rw [hp] at h
    repeat' split at h
    all_goals cases h
    all_goals first
      | exact runTry_size_lb _ _ _ _ _ (by omega)
      | simp

theorem drop_ne_nil_of_lt {data : List Nat} {c : Nat} (hc : c < data.length) :
    ∃ b bs, List.drop c data = b :: bs := by
  cases hdd : List.drop c data with
  | nil =>
    have := List.drop_eq_nil_iff.mp hdd
    omega
  | cons x xs => exact ⟨x, xs, rfl⟩

theorem sweepFuel_isSome (data : List Nat) :
    ∀ f c, data.length < c + f → (sweepFuel data f c).isSome := by
  intro f
  induction f with
  | zero =>
    intro c h
    unfold sweepFuel
    simp only [if_pos (show data.length ≤ c by omega)]
    rfl
  | succ f ih =>
    intro c h
    unfold sweepFuel
    by_cases hc : c < data.length
    · rw [if_pos hc]
      obtain ⟨b, bs, hbs⟩ := drop_ne_nil_of_lt hc
      obtain ⟨r, hr⟩ := disassemble_isOk b bs (c : Int)
      rw [hbs, hr]
      have hsz := disassemble_size_lb hr
      have := ih (c + r.2) (by omega)
      simpa using this
    · rw [if_neg hc]
      rfl

theorem stepsSizeSum_cons (t : Nat × Instruction × Nat) (rest : List (Nat × Instruction × Nat)) :
    stepsSizeSum (t :: rest) = t.2.2 + stepsSizeSum rest := by
  simp [stepsSizeSum]

theorem sweepFuel_sound (data : List Nat) :
    ∀ f c steps, sweepFuel data f c = some steps →
      consecutiveFrom c steps ∧ data.length ≤ c + stepsSizeSum steps := by
  intro f
  induction f with
  | zero =>
    intro c steps h
    unfold sweepFuel at h
    split at h
    · cases h
      constructor
      · trivial
      · simp [stepsSizeSum]
        omega
    · cases h
  | succ f ih =>
    intro c steps h
    unfold sweepFuel at h
    by_cases hc : c < data.length
    · rw [if_pos hc] at h
      cases hdis : disassemble (List.drop c data) (c : Int) with
      | error e => rw [hdis] at h; cases h
      | ok r =>
        rw [hdis] at h
        obtain ⟨rest, hrest, hsteps⟩ := Option.map_eq_some'.mp h
        obtain ⟨hcons, hsum⟩ := ih (c + r.2) rest hrest
        subst hsteps
        refine ⟨⟨rfl, hcons⟩, ?_⟩
        have hx : stepsSizeSum ((c, r.1, r.2) :: rest) = r.2 + stepsSizeSum rest := by
          simp [stepsSizeSum]
        rw [hx]
        omega
    · rw [if_neg hc] at h
      cases h
      refine ⟨trivial, ?_⟩
      simp [stepsSizeSum]
      omega

theorem hexChars_length_le : ∀ f n k, n < 16 ^ k → (hexChars f n).length ≤ k := by
  intro f
  induction f with
  | zero => intro n k h; simp [hexChars]
  | succ f ih =>
    intro n k h
    unfold hexChars
    by_cases h0 : n = 0
    · simp [h0]
    · rw [if_neg h0]
      have hk : k ≠ 0 := by
        rintro rfl
        simp at h
        omega
      have hpow : 16 ^ (k - 1) * 16 = 16 ^ k := by
        rw [← pow_succ]
        congr 1
        omega
      have hdiv : n / 16 < 16 ^ (k - 1) := by
        apply Nat.div_lt_of_lt_mul
        omega
      have := ih (n / 16) (k - 1) hdiv
      simp only [List.length_append, List.length_singleton]
      omega

theorem hexU_length_le {n k : Nat} (h : n < 16 ^ k) (hk : 1 ≤ k) : (hexU n).length ≤ k := by
  unfold hexU
  by_cases h0 : n = 0
  · rw [if_pos h0]
    simpa using hk
  · rw [if_neg h0]
    have hs : ((hexChars n n).asString).length = (hexChars n n).length := rfl
    rw [hs]
    exact hexChars_length_le n n k h

theorem padZero_length {s : String} {w : Nat} (h : s.length ≤ w) :
    (padZero s w).length = w := by
  unfold padZero
  rw [String.length_append]
  have hr : (String.mk (List.replicate (w - s.length) '0')).length = w - s.length := by
    show (List.replicate (w - s.length) '0').length = w - s.length
    simp
  omega

theorem hexChars_all_hex : ∀ f n c, c ∈ hexChars f n → isHexUpper c = true := by
  intro f
  induction f with
  | zero => intro n c h; simp [hexChars] at h
  | succ f ih =>
    intro n c h
    unfold hexChars at h
    by_cases h0 : n = 0
    · simp [h0] at h
    · rw [if_neg h0] at h
      rcases List.mem_append.mp h with h1 | h2
      · exact ih _ _ h1
      · simp at h2
        subst h2
        have h16 : n % 16 < 16 := Nat.mod_lt _ (by omega)
        revert h16
        generalize n % 16 = m
        intro h16
        interval_cases m <;> decide

theorem hexU_all_hex {n : Nat} {c : Char} (h : c ∈ (hexU n).toList) : isHexUpper c = true := by
  unfold hexU at h
  by_cases h0 : n = 0
  · rw [if_pos h0] at h
    simp at h
    subst h
    decide
  · rw [if_neg h0] at h
    have hs : ((hexChars n n).asString).toList = hexChars n n := rfl
    rw [hs] at h
    exact hexChars_all_hex n n c h

theorem padZero_all_hex {s : String} {w : Nat}
    (hdigits : ∀ c ∈ s.toList, isHexUpper c = true) :
    ∀ c ∈ (padZero s w).toList, isHexUpper c = true := by
  intro c hc
  unfold padZero at hc
  have hsp : (String.mk (List.replicate (w - s.length) '0') ++ s).toList
      = List.replicate (w - s.length) '0' ++ s.toList := rfl
  rw [hsp] at hc
  rcases List.mem_append.mp hc with h1 | h2
  · have := List.eq_of_mem_replicate h1
    subst this
    decide
  · exact hdigits c h2

theorem padHex_spec {n w : Nat} (h : n < 16 ^ w) (hw : 1 ≤ w) :
    (padZero (hexU n) w).length = w ∧ (padZero (hexU n) w).toList.all isHexUpper = true := by
  constructor
  · exact padZero_length (hexU_length_le h hw)
  · rw [List.all_eq_true]
    intro c hc
    exact padZero_all_hex (fun c hc => hexU_all_hex hc) c hc

theorem leU_lt {l : List Nat} (h : ∀ b ∈ l, b < 256) : leU l < 256 ^ l.length := by
  induction l with
  | nil => simp [leU]
  | cons b t ih =>
    have hb : b < 256 := h b (by simp)
    have ht := ih (fun x hx => h x (by simp [hx]))
    have hcons : leU (b :: t) = b + 256 * leU t := rfl
    have hp : (256 : Nat) ^ (t.length + 1) = 256 ^ t.length * 256 := pow_succ 256 t.length
    rw [show (b :: t).length = t.length + 1 from rfl, hcons, hp]
    omega

theorem leU_four_lt {d1 d2 d3 d4 : Nat} (h1 : d1 < 256) (h2 : d2 < 256) (h3 : d3 < 256)
    (h4 : d4 < 256) : leU [d1, d2, d3, d4] < 16 ^ 8 := by
  have hx : leU [d1, d2, d3, d4] < 256 ^ ([d1, d2, d3, d4] : List Nat).length := leU_lt (by
    intro b hb
    simp at hb
    rcases hb with rfl | rfl | rfl | rfl <;> omega)
  have hlen : ([d1, d2, d3, d4] : List Nat).length = 4 := rfl
  rw [hlen] at hx
  have hpow : (256 : Nat) ^ 4 = 16 ^ 8 := by norm_num
  rw [hpow] at hx
  exact hx

theorem pySlice_all_lt {data : List Nat} {a b : Nat} (h : ∀ x ∈ data, x < 256) :
    ∀ x ∈ pySlice data a b, x < 256 := by
  intro x hx
  unfold pySlice at hx
  exact h x (List.mem_of_mem_drop (List.mem_of_mem_take hx))

theorem pySlice_length_le (data : List Nat) (a b : Nat) :
    (pySlice data a b).length ≤ b - a := by
  unfold pySlice
  simp

theorem leU_slice_lt {data : List Nat} (a b : Nat) (h : ∀ x ∈ data, x < 256) :
    leU (pySlice data a b) < 256 ^ (b - a) := by
  have hall : ∀ x ∈ pySlice data a b, x < 256 := pySlice_all_lt h
  have h1 := leU_lt hall
  have h2 := pySlice_length_le data a b
  calc leU (pySlice data a b) < 256 ^ (pySlice data a b).length := h1
    _ ≤ 256 ^ (b - a) := Nat.pow_le_pow_right (by omega) h2


theorem lookupL_map_update {k : Int} {v : String} :
    ∀ labs : List (Int × String), labs.any (fun p => decide (p.1 = k)) = true →
      lookupL (labs.map (fun p => if p.1 = k then (k, v) else p)) k = some v := by
  intro labs
  induction labs with
  | nil => intro h; simp at h
  | cons p t ih =>
    intro h
    by_cases hp : p.1 = k
    · simp [lookupL, hp]
    · have h2 : t.any (fun p => decide (p.1 = k)) = true := by
        simp only [List.any_cons] at h
        simpa [hp] using h
      simp [lookupL, hp, ih h2]

theorem lookupL_append_fresh {k : Int} {v : String} :
    ∀ labs : List (Int × String), labs.any (fun p => decide (p.1 = k)) = false →
      lookupL (labs ++ [(k, v)]) k = some v := by
  intro labs
  induction labs with
  | nil => intro h; simp [lookupL]
  | cons p t ih =>
    intro h
    simp only [List.any_cons, Bool.or_eq_false_iff] at h
    have hp : ¬ p.1 = k := by
      intro hh
      have h1 := h.1
      rw [hh] at h1
      simp at h1
    simp [lookupL, hp, ih h.2]

theorem lookupL_update_self (labs : List (Int × String)) (k : Int) (v : String) :
    lookupL (labelsUpdate labs k v) k = some v := by
  unfold labelsUpdate
  cases hb : labs.any (fun p => decide (p.1 = k)) with
  | true =>
    rw [if_pos rfl]
    exact lookupL_map_update labs hb
  | false =>
    rw [if_neg (by simp)]
    exact lookupL_append_fresh labs hb

theorem lookupL_map_other {k kp : Int} {vp : String} (hk : kp ≠ k) :
    ∀ labs : List (Int × String),
      lookupL (labs.map (fun p => if p.1 = kp then (kp, vp) else p)) k = lookupL labs k := by
  intro labs
  induction labs with
  | nil => rfl
  | cons p t ih =>
    by_cases hp : p.1 = kp
    · simp [lookupL, hp, hk, ih]
    · simp [lookupL, hp, ih]

theorem lookupL_append_other {k kp : Int} {vp : String} (hk : kp ≠ k) :
    ∀ labs : List (Int × String), lookupL (labs ++ [(kp, vp)]) k = lookupL labs k := by
  intro labs
  induction labs with
  | nil => simp [lookupL, hk]
  | cons p t ih => simp [lookupL, ih]

theorem lookupL_update_other {labs : List (Int × String)} {k kp : Int} {vp : String}
    (hk : kp ≠ k) : lookupL (labelsUpdate labs kp vp) k = lookupL labs k := by
  unfold labelsUpdate
  split
  · exact lookupL_map_other hk labs
  · exact lookupL_append_other hk labs

theorem dLabel_snd {ins : Instruction} {kv : Int × String} (h : dLabel ins = some kv) :
    kv.2 = labelText kv.1 := by
  unfold dLabel at h
  split at h
  · split at h
    · cases h
      rfl
    · cases h
  · cases h

theorem labels_fold_from {v : Int} :
    ∀ (steps : List (Nat × Instruction × Nat)) (acc : List (Int × String)),
      lookupL acc v = some (labelText v) →
      lookupL (steps.foldl labelStep acc) v = some (labelText v) := by
  intro steps
  induction steps with
  | nil => intro acc h; simpa using h
  | cons t rest ih =>
    intro acc h
    rw [List.foldl_cons]
    apply ih
    unfold labelStep
    cases hd : dLabel t.2.1 with
    | none => simpa using h
    | some kv =>
      have hsnd := dLabel_snd hd
      show lookupL (labelsUpdate acc kv.1 kv.2) v = some (labelText v)
      by_cases hkv : kv.1 = v
      · rw [hkv, lookupL_update_self, hsnd, hkv]
      · rw [lookupL_update_other hkv]
        exact h

theorem labels_fold_hit {v : Int} :
    ∀ (steps : List (Nat × Instruction × Nat)) (acc : List (Int × String))
      (t0 : Nat × Instruction × Nat), t0 ∈ steps →
      dLabel t0.2.1 = some (v, labelText v) →
      lookupL (steps.foldl labelStep acc) v = some (labelText v) := by
  intro steps
  induction steps with
  | nil => intro acc t0 hmem; simp at hmem
  | cons t rest ih =>
    intro acc t0 hmem hlab
    rcases List.mem_cons.mp hmem with rfl | hmem2
    · rw [List.foldl_cons]
      apply labels_fold_from
      unfold labelStep
      rw [hlab]
      show lookupL (labelsUpdate acc v (labelText v)) v = some (labelText v)
      exact lookupL_update_self acc v (labelText v)
    · rw [List.foldl_cons]
      exact ih (labelStep acc t) t0 hmem2 hlab

theorem sweepLabels_lookup {steps : List (Nat × Instruction × Nat)}
    {t0 : Nat × Instruction × Nat} {v : Int} (hmem : t0 ∈ steps)
    (hlab : dLabel t0.2.1 = some (v, labelText v)) :
    lookupL (sweepLabels steps) v = some (labelText v) := by
  unfold sweepLabels
  exact labels_fold_hit steps [] t0 hmem hlab

set_option maxRecDepth 4000

/-- Claim C1: for every nonempty byte buffer, top-level dispatch never propagates
an exception: it always returns a result, any fault raised by the decode
body is converted into the 1-byte db token for the first byte, and that
token renders as db 0x followed by exactly two uppercase hex digits. -/
theorem dispatch_catches_all_decode_faults :
    ∀ (b : Nat) (rest : List Nat) (off : Int),
      (∃ r, disassemble (b :: rest) off = Except.ok r) ∧
      (∀ (opcode_size : Nat) (info : InstructionInfo) (e : String),
        tryBody (b :: rest) opcode_size info off = Except.error e →
        runTry (b :: rest) opcode_size info off b = (dbInstr b, 1)) ∧
      (b < 256 →
        (dbInstr b).render = ("db 0x") ++ padZero (hexU b) 2 ∧
        (padZero (hexU b) 2).length = 2 ∧
        (padZero (hexU b) 2).toList.all isHexUpper = true) := by
  intro b rest off
  refine ⟨disassemble_isOk b rest off, ?_, ?_⟩
  · intro osz info e he
    unfold runTry
    rw [he]
  · intro hb
    have hneg : ¬ ((b : Int) < 0) := by omega
    have hren : (dbInstr b).render = ("db 0x") ++ padZero (hexU b) 2 := by
      simp [Instruction.render, dbInstr, pyFmtImmHex, pyHexPad, hneg]
    have hspec : (padZero (hexU b) 2).length = 2 ∧
        (padZero (hexU b) 2).toList.all isHexUpper = true :=
      padHex_spec (by norm_num; omega) (by norm_num)
    exact ⟨hren, hspec.1, hspec.2⟩

theorem dispatch_catches_all_decode_faults_witness :
    runTry [0xFF, 0xD8] 1
      (mkI 0xFF none true Encoding.M
        [(0, ("inc")), (1, ("dec")), (2, ("call")), (4, ("jmp")), (6, ("push"))]
        [0, 1, 2, 3] false 4) 0 0xFF = (dbInstr 0xFF, 1) ∧
    (dbInstr 0xFF).render = ("db 0x") ++ padZero (hexU 0xFF) 2 := by
  have h := dispatch_catches_all_decode_faults 0xFF [0xD8] 0
  exact ⟨h.2.1 1 _ (("INVALID OPCODE EXTENSION ") ++ toString 3 ++ (" FOR OPCODE ") ++ hexU 0xFF)
    (by decide), (h.2.2 (by decide)).1⟩

/-- Claim C3: for every nonempty buffer the linear sweep terminates within
buffer-length-many steps (fuel length+1 suffices), because every decode
step, the db fallback included, consumes at least one byte. -/
theorem sweep_terminates_with_progress :
    ∀ data : List Nat, data ≠ [] →
      (sweepFuel data (data.length + 1) 0).isSome = true ∧
      (∀ (b : Nat) (rest : List Nat) (off : Int) (r : Instruction × Nat),
        disassemble (b :: rest) off = Except.ok r → 1 ≤ r.2) := by
  intro data hne
  refine ⟨sweepFuel_isSome data (data.length + 1) 0 (by omega), ?_⟩
  intro b rest off r h
  exact disassemble_size_lb h

theorem sweep_terminates_with_progress_witness :
    (sweepFuel [0x90] 2 0).isSome = true ∧
    1 ≤ ((⟨some ("nop"), some Encoding.ZO, none, none, none, false⟩, 1) :
      Instruction × Nat).2 := by
  have h := sweep_terminates_with_progress [0x90] (by decide)
  exact ⟨h.1, h.2 0x90 [] 0 _ (by decide)⟩

/-- Claim C2 (amended): the sweep's decode steps tile the buffer consecutively
from offset 0 with no gap and no overlap, and the sum of consumed sizes is
at least the buffer length; it can exceed it, because the final step may
consume past the end of the buffer. -/
theorem sweep_sizes_tile_buffer :
    ∀ data : List Nat,
      consecutiveFrom 0 (sweepSteps data) ∧ data.length ≤ stepsSizeSum (sweepSteps data) := by
  intro data
  have hs : (sweepFuel data (data.length + 1) 0).isSome :=
    sweepFuel_isSome data (data.length + 1) 0 (by omega)
  obtain ⟨steps, hsteps⟩ := Option.isSome_iff_exists.mp hs
  have hsound := sweepFuel_sound data (data.length + 1) 0 steps hsteps
  unfold sweepSteps
  rw [hsteps]
  simpa using hsound

/-- Claim C2 counterexample: on the buffer [0x68] the single decode step consumes
5 bytes, so the sum of consumed sizes is 5, not the buffer length 1. -/
theorem sweep_sum_exceeds_length_cex :
    stepsSizeSum (sweepSteps [0x68]) = 5 ∧ ([0x68] : List Nat).length = 1 ∧
    ¬ stepsSizeSum (sweepSteps [0x68]) = ([0x68] : List Nat).length := by decide

/-- Claim C10: disassemble returns a result for every nonempty suffix; truncated
little-endian reads yield the value of the remaining bytes (zero when none
remain), a missing addressing byte degrades to the 1-byte db fallback, and
the consumed size may extend past the end of the buffer. -/
theorem truncated_decode_totality :
    (∀ (b : Nat) (rest : List Nat) (off : Int), ∃ r, disassemble (b :: rest) off = Except.ok r) ∧
    (disassemble [0x68] 0 =
      Except.ok (⟨some ("push"), some Encoding.I, some (PyVal.str ("0x00000000")),
        none, none, false⟩, 5) ∧ ([0x68] : List Nat).length < 5) ∧
    (disassemble [0x68, 0x05] 0 =
      Except.ok (⟨some ("push"), some Encoding.I, some (PyVal.str ("0x00000005")),
        none, none, false⟩, 5) ∧ ([0x68, 0x05] : List Nat).length < 5) ∧
    disassemble [0x8B] 0 = Except.ok (dbInstr 0x8B, 1) := by
  exact ⟨disassemble_isOk, ⟨by decide, by decide⟩, ⟨by decide, by decide⟩, by decide⟩

/-- Claim C5 (code bug): the fixed-accumulator opcodes 0xA1/0xA3 do not store the
raw absolute offset: they fall into the branch the source comments as
"encoding is D" and get offset + instruction_size added to a signed read,
so A1 00000000 at offset 0 stores 5 and renders as mov eax, 5. -/
theorem accumulator_moves_get_offset_adjusted :
    (disassemble [0xA1, 0x00, 0x00, 0x00, 0x00] 0 =
      Except.ok (⟨some ("mov"), some Encoding.FD, some (PyVal.int 5),
        some ("eax"), none, false⟩, 5) ∧
      ¬ (⟨some ("mov"), some Encoding.FD, some (PyVal.int 5), some ("eax"), none, false⟩ :
        Instruction).immediate = some (PyVal.int 0) ∧
      (⟨some ("mov"), some Encoding.FD, some (PyVal.int 5), some ("eax"), none, false⟩ :
        Instruction).render = ("mov eax, 5")) ∧
    (disassemble [0xA3, 0x10, 0x00, 0x00, 0x00] 0 =
      Except.ok (⟨some ("mov"), some Encoding.TD, some (PyVal.int 21),
        some ("eax"), none, false⟩, 5) ∧
      (⟨some ("mov"), some Encoding.TD, some (PyVal.int 21), some ("eax"), none, false⟩ :
        Instruction).render = ("mov 21, eax")) := by
  exact ⟨⟨by decide, by decide, by decide⟩, ⟨by decide, by decide⟩⟩

theorem lookup_mem : ∀ (l : List (Nat × InstructionInfo)) (k : Nat) (i : InstructionInfo),
    l.lookup k = some i → (k, i) ∈ l := by
  intro l
  induction l with
  | nil => intro k i h; cases h
  | cons p t ih =>
    intro k i h
    rw [List.lookup] at h
    cases hbeq : (k == p.1) with
    | true =>
      simp only [hbeq] at h
      cases h
      have hk : k = p.1 := beq_iff_eq.mp hbeq
      rw [hk]
      exact List.mem_cons_self p t
    | false =>
      simp only [hbeq] at h
      exact List.mem_cons_of_mem _ (ih k i h)

theorem map_keys_opcode : ∀ p ∈ GLOBAL_INSTRUCTIONS_MAP, p.2.opcode = p.1 := by decide

/-- Claim C6: with an extension map, a mapped selector yields the mapped mnemonic
(0xFF selector 0 gives inc) and an unmapped selector (0xFF selector 3)
raises, surfacing as a 1-byte db token; without an extension map the fixed
mnemonic is used. -/
theorem opcode_extension_resolution :
    (∀ info : InstructionInfo, GLOBAL_INSTRUCTIONS_MAP.lookup 0xFF = some info →
      modrm_get_mnemonic 0 info = Except.ok (some ("inc")) ∧
      (∃ e, modrm_get_mnemonic 3 info = Except.error e)) ∧
    (disassemble [0xFF, 0xD8] 0 = Except.ok (dbInstr 0xFF, 1) ∧
      (dbInstr 0xFF).render = ("db 0xFF")) ∧
    (∃ t, disassemble [0xFF, 0xC0] 0 = Except.ok (t, 2) ∧ t.render = ("inc eax")) ∧
    (∀ (reg : Nat) (info : InstructionInfo), info.extension_map = [] →
      modrm_get_mnemonic reg info = Except.ok info.mnemonic) := by
  refine ⟨?_, ⟨by decide, by decide⟩,
    ⟨⟨some ("inc"), some Encoding.M, none, some ("eax"), some ("eax"), false⟩,
      by decide, by decide⟩, ?_⟩
  · intro info hinfo
    have hl : GLOBAL_INSTRUCTIONS_MAP.lookup 0xFF =
        some (mkI 0xFF none true Encoding.M
          [(0, ("inc")), (1, ("dec")), (2, ("call")), (4, ("jmp")), (6, ("push"))]
          [0, 1, 2, 3] false 4) := by decide
    rw [hl] at hinfo
    cases hinfo
    exact ⟨by decide, ⟨("INVALID OPCODE EXTENSION 3 FOR OPCODE FF"), by decide⟩⟩
  · intro reg info hext
    unfold modrm_get_mnemonic
    rw [if_neg (by simp [hext]), if_neg (by simp [hext])]

theorem opcode_extension_resolution_witness :
    modrm_get_mnemonic 0
      (mkI 0xFF none true Encoding.M
        [(0, ("inc")), (1, ("dec")), (2, ("call")), (4, ("jmp")), (6, ("push"))]
        [0, 1, 2, 3] false 4) = Except.ok (some ("inc")) ∧
    modrm_get_mnemonic 5
      (mkI 0x90 (some ("nop")) false Encoding.ZO [] [0, 1, 2, 3] false 4) =
      Except.ok (some ("nop")) := by
  have h := opcode_extension_resolution
  exact ⟨(h.1 _ (by decide)).1, h.2.2.2 5 _ (by decide)⟩

/-- Claim C8: immediate-only rendering depends on declared width: 4 bytes give an
8-hex-digit literal, 2 bytes a 4-hex-digit literal, any other width a plain
signed decimal; push imm8 05 renders push 5 while push imm32 renders
push 0x00000005. -/
theorem immediate_width_rendering :
    (∀ (data : List Nat) (osz : Nat) (info : InstructionInfo) (off : Int),
      info.encoding = Encoding.I →
      (info.imm_size = 4 →
        no_modrm_no_regadd_disassemble data osz info off =
          (⟨info.mnemonic, some Encoding.I,
            some (PyVal.str (("0x") ++ padZero (hexU (leU (List.take 4 data))) 8)),
            none, none, false⟩, osz + 4)) ∧
      (info.imm_size = 2 →
        no_modrm_no_regadd_disassemble data osz info off =
          (⟨info.mnemonic, some Encoding.I,
            some (PyVal.str (("0x") ++ padZero (hexU (leU (List.take 2 data))) 4)),
            none, none, false⟩, osz + 2)) ∧
      (¬ info.imm_size = 4 → ¬ info.imm_size = 2 →
        no_modrm_no_regadd_disassemble data osz info off =
          (⟨info.mnemonic, some Encoding.I,
            some (PyVal.str (toString (leSigned (List.take info.imm_size data)))),
            none, none, false⟩, osz + info.imm_size))) ∧
    (∃ t, disassemble [0x6A, 0x05] 0 = Except.ok (t, 2) ∧ t.render = ("push 5")) ∧
    (∃ t, disassemble [0x68, 0x05, 0x00, 0x00, 0x00] 0 = Except.ok (t, 5) ∧
      t.render = ("push 0x00000005")) ∧
    ¬ (("push 5") : String) = ("push 0x00000005") := by
  refine ⟨?_, ⟨⟨some ("push"), some Encoding.I, some (PyVal.str ("5")), none, none, false⟩,
      by decide, by decide⟩,
    ⟨⟨some ("push"), some Encoding.I, some (PyVal.str ("0x00000005")), none, none, false⟩,
      by decide, by decide⟩, by decide⟩
  intro data osz info off henc
  refine ⟨?_, ?_, ?_⟩
  · intro h4
    simp [no_modrm_no_regadd_disassemble, henc, h4]
  · intro h2
    simp [no_modrm_no_regadd_disassemble, henc, h2]
  · intro h4 h2
    simp [no_modrm_no_regadd_disassemble, henc, h4, h2]

theorem immediate_width_rendering_witness :
    no_modrm_no_regadd_disassemble [0x05] 1
      (mkI 0x6A (some ("push")) false Encoding.I [] [0, 1, 2, 3] false 1) 0 =
      (⟨some ("push"), some Encoding.I, some (PyVal.str ("5")), none, none, false⟩, 2) := by
  have h := (immediate_width_rendering.1 [0x05] 1
    (mkI 0x6A (some ("push")) false Encoding.I [] [0, 1, 2, 3] false 1) 0 rfl).2.2
    (by decide) (by decide)
  exact h.trans (by decide)

/-- Claim C9: dispatch only selects a register-embedded record when the byte
minus the record's base opcode is in [0, 8) (and a direct table hit has
byte equal to the base, since every table value's opcode equals its key);
the decode takes the register-name-table entry at that index, consumes 1
byte plus a 4-byte immediate rendered as 8 uppercase hex digits in the OI
form; 0x50 is push eax, 0x53 push ebx, 0x58 pop eax. -/
theorem register_embedded_decode :
    (∀ (b : Nat) (info : InstructionInfo), regadd_check_opcode b = some info →
      info.opcode ≤ b ∧ b - info.opcode < 8) ∧
    (∀ p ∈ GLOBAL_INSTRUCTIONS_MAP, p.2.opcode = p.1) ∧
    (∀ (data : List Nat) (b0 : Nat) (info : InstructionInfo) (rn : String),
      pyIndex data 0 = Except.ok b0 →
      pyIndex GLOBAL_REGISTER_NAMES (b0 - info.opcode) = Except.ok rn →
      info.opcode ≤ b0 →
      regadd_disassemble data info =
        (if info.encoding = Encoding.OI then
          Except.ok (⟨info.mnemonic, some info.encoding,
            some (PyVal.str (("0x") ++ padZero (hexU (leU (pySlice data 1 (1 + info.imm_size)))) 8)),
            some rn, none, false⟩, 1 + info.imm_size)
        else
          Except.ok (⟨info.mnemonic, some info.encoding, none, some rn, none, false⟩, 1))) ∧
    (∀ d1 d2 d3 d4 : Nat, d1 < 256 → d2 < 256 → d3 < 256 → d4 < 256 →
      (padZero (hexU (leU [d1, d2, d3, d4])) 8).length = 8 ∧
      (padZero (hexU (leU [d1, d2, d3, d4])) 8).toList.all isHexUpper = true) ∧
    (∃ t, disassemble [0x50] 0 = Except.ok (t, 1) ∧ t.render = ("push eax")) ∧
    (∃ t, disassemble [0x53] 0 = Except.ok (t, 1) ∧ t.render = ("push ebx")) ∧
    (∃ t, disassemble [0x58] 0 = Except.ok (t, 1) ∧ t.render = ("pop eax")) ∧
    (∃ t, disassemble [0xB9, 0x78, 0x56, 0x34, 0x12] 0 = Except.ok (t, 5) ∧
      t.render = ("mov ecx, 0x12345678")) := by
  refine ⟨?_, map_keys_opcode, ?_, ?_,
    ⟨⟨some ("push"), some Encoding.O, none, some ("eax"), none, false⟩, by decide, by decide⟩,
    ⟨⟨some ("push"), some Encoding.O, none, some ("ebx"), none, false⟩, by decide, by decide⟩,
    ⟨⟨some ("pop"), some Encoding.O, none, some ("eax"), none, false⟩, by decide, by decide⟩,
    ⟨⟨some ("mov"), some Encoding.OI, some (PyVal.str ("0x12345678")), some ("ecx"), none, false⟩,
      by decide, by decide⟩⟩
  · intro b info h
    unfold regadd_check_opcode at h
    cases hf : REGADD_OPCODES.find? (fun r => decide (r ≤ b ∧ b - r < 8)) with
    | none => rw [hf] at h; cases h
    | some r =>
      rw [hf] at h
      have hpred := List.find?_some hf
      simp only [decide_eq_true_eq] at hpred
      have hmem := lookup_mem _ _ _ h
      have hop := map_keys_opcode (r, info) hmem
      simp only [] at hop
      rw [hop]
      exact hpred
  · intro data b0 info rn h0 hrn hle
    have hj : pyIndexI GLOBAL_REGISTER_NAMES ((b0 : Int) - (info.opcode : Int)) =
        pyIndex GLOBAL_REGISTER_NAMES (b0 - info.opcode) := by
      unfold pyIndexI
      have hnn : ¬ ((b0 : Int) - (info.opcode : Int) < 0) := by omega
      have hjj : (if ((b0 : Int) - (info.opcode : Int)) < 0 then
          ((b0 : Int) - (info.opcode : Int)) + (GLOBAL_REGISTER_NAMES.length : Int)
        else ((b0 : Int) - (info.opcode : Int))) = ((b0 : Int) - (info.opcode : Int)) :=
        if_neg hnn
      rw [hjj, if_neg hnn]
      congr 1
      omega
    simp only [regadd_disassemble, h0, hj, hrn]
  · intro d1 d2 d3 d4 h1 h2 h3 h4
    exact padHex_spec (leU_four_lt h1 h2 h3 h4) (by norm_num)

theorem register_embedded_decode_witness :
    regadd_check_opcode 0x53 =
      some (mkI 0x50 (some ("push")) false Encoding.O [] [0, 1, 2, 3] false 4) ∧
    ((mkI 0x50 (some ("push")) false Encoding.O [] [0, 1, 2, 3] false 4).opcode ≤ 0x53 ∧
      0x53 - (mkI 0x50 (some ("push")) false Encoding.O [] [0, 1, 2, 3] false 4).opcode < 8) ∧
    regadd_disassemble [0x53]
      (mkI 0x50 (some ("push")) false Encoding.O [] [0, 1, 2, 3] false 4) =
      Except.ok (⟨some ("push"), some Encoding.O, none, some ("ebx"), none, false⟩, 1) := by
  have h := register_embedded_decode
  refine ⟨by decide, h.1 0x53 _ (by decide), ?_⟩
  have h3 := h.2.2.1 [0x53] 0x53
    (mkI 0x50 (some ("push")) false Encoding.O [] [0, 1, 2, 3] false 4) ("ebx")
    (by decide) (by decide) (by decide)
  exact h3.trans (by decide)

/-- Claim C7: in addressing-byte decode, a nonzero mode-1 byte displacement is
rendered with an explicit sign and 0x plus 2 uppercase hex digits of its
absolute value; a nonzero mode-2 dword displacement is always rendered as
plus 0x and 8 uppercase hex digits of the raw unsigned value (never a
minus sign); zero displacements are omitted, so 8B 40 00 renders as
mov eax, [ byte eax ] in 3 bytes. -/
theorem displacement_rendering :
    (∀ (data : List Nat) (rm b1 : Nat) (rn : String), ¬ rm = 4 →
      pyIndex data 1 = Except.ok b1 →
      pyIndex GLOBAL_REGISTER_NAMES rm = Except.ok rn →
      modrm_rm_operand data 1 rm =
        Except.ok ((if to_signed b1 = 0 then ("[ byte ") ++ rn ++ (" ]")
          else ("[ byte ") ++ rn ++ (" ") ++ (if to_signed b1 > 0 then ("+") else ("-")) ++
            (" 0x") ++ padZero (hexU (to_signed b1).natAbs) 2 ++ (" ]")), 1)) ∧
    (∀ b1 : Nat, b1 < 256 →
      (padZero (hexU (to_signed b1).natAbs) 2).length = 2 ∧
      (padZero (hexU (to_signed b1).natAbs) 2).toList.all isHexUpper = true) ∧
    (∀ (data : List Nat) (rm : Nat) (rn : String), ¬ rm = 4 →
      pyIndex GLOBAL_REGISTER_NAMES rm = Except.ok rn →
      modrm_rm_operand data 2 rm =
        Except.ok ((if leU (pySlice data 1 5) = 0 then ("[ dword ") ++ rn ++ (" ]")
          else ("[ dword ") ++ rn ++ (" + 0x") ++
            padZero (hexU (leU (pySlice data 1 5))) 8 ++ (" ]")), 4)) ∧
    (∀ data : List Nat, (∀ x ∈ data, x < 256) →
      (padZero (hexU (leU (pySlice data 1 5))) 8).length = 8 ∧
      (padZero (hexU (leU (pySlice data 1 5))) 8).toList.all isHexUpper = true) ∧
    (∃ t, disassemble [0x8B, 0x40, 0x00] 0 = Except.ok (t, 3) ∧
      t.render = ("mov eax, [ byte eax ]")) ∧
    (∃ t, disassemble [0x8B, 0x40, 0x05] 0 = Except.ok (t, 3) ∧
      t.render = ("mov eax, [ byte eax + 0x05 ]")) ∧
    (∃ t, disassemble [0x8B, 0x40, 0x80] 0 = Except.ok (t, 3) ∧
      t.render = ("mov eax, [ byte eax - 0x80 ]")) ∧
    (∃ t, disassemble [0x8B, 0x80, 0x01, 0x02, 0x03, 0x04] 0 = Except.ok (t, 6) ∧
      t.render = ("mov eax, [ dword eax + 0x04030201 ]")) := by
  refine ⟨?_, by decide, ?_, ?_,
    ⟨⟨some ("mov"), some Encoding.RM, none, some ("eax"), some ("[ byte eax ]"), false⟩,
      by decide, by decide⟩,
    ⟨⟨some ("mov"), some Encoding.RM, none, some ("eax"), some ("[ byte eax + 0x05 ]"), false⟩,
      by decide, by decide⟩,
    ⟨⟨some ("mov"), some Encoding.RM, none, some ("eax"), some ("[ byte eax - 0x80 ]"), false⟩,
      by decide, by decide⟩,
    ⟨⟨some ("mov"), some Encoding.RM, none, some ("eax"),
        some ("[ dword eax + 0x04030201 ]"), false⟩,
      by decide, by decide⟩⟩
  · intro data rm b1 rn hrm hb1 hrn
    by_cases hz : to_signed b1 = 0
    · simp [modrm_rm_operand, hb1, hrn, hrm, hz, String.append_assoc]
    · simp [modrm_rm_operand, hb1, hrn, hrm, hz, String.append_assoc]
  · intro data rm rn hrm hrn
    by_cases hz : leU (pySlice data 1 5) = 0
    · simp [modrm_rm_operand, hrn, hrm, hz, String.append_assoc]
    · simp [modrm_rm_operand, hrn, hrm, hz, String.append_assoc]
  · intro data hb
    have hlt := leU_slice_lt 1 5 hb
    have hlt2 : leU (pySlice data 1 5) < 16 ^ 8 := by
      have : (256 : Nat) ^ (5 - 1) = 16 ^ 8 := by norm_num
      rw [this] at hlt
      exact hlt
    exact padHex_spec hlt2 (by norm_num)

theorem displacement_rendering_witness :
    modrm_rm_operand [0x40, 0x85] 1 0 =
      Except.ok (("[ byte eax - 0x7B ]"), 1) ∧
    modrm_rm_operand [0x80, 0x01, 0x02, 0x03, 0x04] 2 0 =
      Except.ok (("[ dword eax + 0x04030201 ]"), 4) ∧
    (padZero (hexU (to_signed 0x85).natAbs) 2).length = 2 := by
  have h := displacement_rendering
  refine ⟨?_, ?_, (h.2.1 0x85 (by decide)).1⟩
  · have h1 := h.1 [0x40, 0x85] 0 0x85 ("eax") (by decide) (by decide) (by decide)
    exact h1.trans (by decide)
  · have h3 := h.2.2.1 [0x80, 0x01, 0x02, 0x03, 0x04] 0 ("eax") (by decide) (by decide)
    exact h3.trans (by decide)

/-- Claim C4 (amended): a D-encoded instruction decoded at offset o with size s
stores o + s + d as its operand (d the signed little-endian immediate);
the sweep replaces that value with the label offset_ ++ Python 08X of the
value ++ h and records it in the label mapping under key o + s + d.  The
08X rendering is 8 uppercase zero-padded hex digits exactly for
destinations in [0, 2^32); a negative destination renders with a leading
minus sign and only 7 padded digits. -/
theorem relative_displacement_label_resolution :
    (∀ (data : List Nat) (osz : Nat) (info : InstructionInfo) (off : Int),
      info.encoding = Encoding.D →
      no_modrm_no_regadd_disassemble data osz info off =
        (⟨info.mnemonic, some Encoding.D,
          some (PyVal.int (off + ((osz + info.imm_size : Nat) : Int) +
            leSigned (List.take info.imm_size data))),
          none, none, false⟩, osz + info.imm_size)) ∧
    (∀ (data : List Nat) (o : Nat) (ins : Instruction) (s : Nat) (v : Int),
      (o, ins, s) ∈ sweepSteps data → ins.encoding = some Encoding.D →
      ins.immediate = some (PyVal.int v) →
      lookupL (sweepLabels (sweepSteps data)) v = some (labelText v) ∧
      labelText v = ("offset_") ++ pyHexPad v 8 ++ ("h") ∧
      substLabel ins = { ins with immediate := some (PyVal.str (labelText v)) } ∧
      (o, (substLabel ins, pySlice data o (o + s))) ∈ (linnear_sweep data).1) ∧
    (∀ v : Int, 0 ≤ v → v < 2 ^ 32 →
      (pyHexPad v 8).length = 8 ∧ (pyHexPad v 8).toList.all isHexUpper = true) := by
  refine ⟨?_, ?_, ?_⟩
  · intro data osz info off henc
    simp [no_modrm_no_regadd_disassemble, henc, Prod.ext_iff, Instruction.mk.injEq]
    omega
  · intro data o ins s v hmem henc himm
    have hdl : dLabel ins = some (v, labelText v) := by
      simp [dLabel, henc, himm]
    refine ⟨sweepLabels_lookup hmem hdl, rfl, ?_, ?_⟩
    · simp [substLabel, hdl]
    · simp only [linnear_sweep]
      exact List.mem_map_of_mem _ hmem
  · intro v h0 h32
    have hneg : ¬ (v < 0) := by omega
    have heq : pyHexPad v 8 = padZero (hexU v.toNat) 8 := by
      unfold pyHexPad
      rw [if_neg hneg]
    have h16 : (16 : Nat) ^ 8 = 4294967296 := by norm_num
    have h232 : (2 : Int) ^ 32 = 4294967296 := by norm_num
    have hlt : v.toNat < 16 ^ 8 := by omega
    rw [heq]
    exact padHex_spec hlt (by norm_num)

/-- Claim C4 counterexample: the 2-byte buffer EB FD is a short jmp whose
destination is 0 + 2 + (-3) = -1; the sweep stores key -1 with label
offset_-0000001h, whose 8-character core is a minus sign followed by only
7 hex digits, not 8 uppercase hex digits. -/
theorem negative_destination_label_cex :
    (linnear_sweep [0xEB, 0xFD]).2 = [(-1, ("offset_-0000001h"))] ∧
    pyHexPad (-1) 8 = ("-0000001") ∧
    (("-0000001") : String).toList.all isHexUpper = false := by
  refine ⟨by decide, by decide, by decide⟩

theorem relative_displacement_label_resolution_witness :
    no_modrm_no_regadd_disassemble [0x05, 0x00, 0x00, 0x00] 1
      (mkI 0xE8 (some ("call")) false Encoding.D [] [0, 1, 2, 3] false 4) 0 =
      (⟨some ("call"), some Encoding.D, some (PyVal.int 10), none, none, false⟩, 5) ∧
    lookupL (sweepLabels (sweepSteps [0xE8, 0x05, 0x00, 0x00, 0x00])) 10 =
      some (labelText 10) ∧
    (pyHexPad 10 8).length = 8 := by
  have h := relative_displacement_label_resolution
  refine ⟨?_, ?_, ?_⟩
  · have h1 := h.1 [0x05, 0x00, 0x00, 0x00] 1
      (mkI 0xE8 (some ("call")) false Encoding.D [] [0, 1, 2, 3] false 4) 0 rfl
    exact h1.trans (by decide)
  · exact (h.2.1 [0xE8, 0x05, 0x00, 0x00, 0x00] 0
      ⟨some ("call"), some Encoding.D, some (PyVal.int 10), none, none, false⟩ 5 10
      (by decide) (by decide) (by decide)).1
  · exact (h.2.2 10 (by decide) (by norm_num)).1
